import Mathlib

/-!
Shallow embedding of the neo-go interop service layer (package `core`):
traceability oracle, ledger lookups, storage operations, contract calls and
runtime notifications, as found in the repository source.  Machine integers
(uint32, int64) are modelled as `Nat`/`Int` with explicit `% 2^w` where the
Go code can overflow.  Fallible handlers return `Except String`.
-/

namespace NeoGo

/-- Bytes are modelled as lists of naturals (each conceptually < 256). -/
abbrev Bytes := List Nat

/-- `MaxStorageKeyLen` is the maximum length of a key for storage items
(constant from the source). -/
def MaxStorageKeyLen : Nat := 1024

/-- Modelled from the spec: `MaxTraceableBlocks` is set in the source to
`transaction.MaxValidUntilBlockIncrement`, whose defining package is not in
`src/`; the spec and the repository protocol configuration both give
200 000. -/
def MaxTraceableBlocks : Nat := 200000

/-- Modelled from the spec: `StoragePrice` (per-byte grow cost for storage
puts) is referenced by the source but declared in a file not in `src/`; the
spec gives no numeric value, so a fixed representative constant is used.
None of the claims depend on its numeric value. -/
def StoragePrice : Int := 100000

/-- Little-endian base-256 digits of a natural number (minimal, no padding). -/
def natToBytesLE (n : Nat) : List Nat :=
  if h : n = 0 then [] else (n % 256) :: natToBytesLE (n / 256)
termination_by n
decreasing_by
  exact Nat.div_lt_self (Nat.pos_of_ne_zero h) (by omega)

/-- Little-endian base-256 digits, padded/truncated to exactly `k` bytes. -/
def natToBytesLEPad : Nat → Nat → List Nat
  | _, 0 => []
  | n, k + 1 => (n % 256) :: natToBytesLEPad (n / 256) k

/-- Value of a little-endian base-256 digit list. -/
def natOfBytesLE : List Nat → Nat
  | [] => 0
  | b :: rest => b + 256 * natOfBytesLE rest

/-- Modelled from the spec: the VM's bytes→integer view (little-endian
two's complement), used by `Element.BigInt` on byte-array items; the `vm`
package is not in `src/`. -/
def intOfBytesLE (b : List Nat) : Int :=
  match b with
  | [] => 0
  | _ =>
    let n := natOfBytesLE b
    if b.getLastD 0 ≥ 128 then (n : Int) - 2 ^ (8 * b.length) else (n : Int)

/-- Modelled from the spec: the VM's integer→bytes view (minimal
little-endian two's complement), used by `Element.Bytes` on integer items;
the `vm` package is not in `src/`. -/
def intToBytesLE (i : Int) : List Nat :=
  if i = 0 then []
  else if 0 < i then
    let bs := natToBytesLE i.toNat
    if bs.getLastD 0 ≥ 128 then bs ++ [0] else bs
  else
    let m := (-i).toNat
    let k0 := (natToBytesLE m).length
    let k := if m ≤ 2 ^ (8 * k0 - 1) then k0 else k0 + 1
    natToBytesLEPad (2 ^ (8 * k) - m) k

/-- Go `big.Int.Int64` / `int` conversion: wrap to a signed 64-bit value. -/
def wrap64 (i : Int) : Int := (i + 2 ^ 63) % 2 ^ 64 - 2 ^ 63

/-- UTF-8-agnostic byte view of a string (code points), for error payloads. -/
def strBytes (s : String) : List Nat := s.data.map Char.toNat

/-- `state.StorageItem`: stored byte value plus constant marker. -/
structure StorageItem where
  Value : Bytes
  IsConst : Bool
deriving Repr, DecidableEq, Inhabited

/-- `StorageContext` contains storing id and read/write flag (from the
source). -/
structure StorageContext where
  ID : Int
  ReadOnly : Bool
deriving Repr, DecidableEq, Inhabited

/-- Modelled from the spec: a contract manifest carries feature bits
(bit 0 = `HasStorage`); its permission machinery (`CanCall`) is consulted by
the handlers as a black box and is abstracted as a function parameter where
needed, since the `manifest` package is not in `src/`. -/
structure Manifest where
  features : Nat
deriving Repr, DecidableEq, Inhabited

/-- `state.Contract`: stable id, bytecode and manifest. -/
structure Contract where
  ID : Int
  script : Bytes
  manifest : Manifest
deriving Repr, DecidableEq, Inhabited

/-- `Contract.HasStorage`: feature bit 0 of the manifest. -/
def Contract.hasStorage (c : Contract) : Bool := c.manifest.features.testBit 0

/-- `transaction.Transaction`: the fields consumed by the embedded
handlers; the hash is carried as a field (hashing is outside `src/`). -/
structure Tx where
  hash : Bytes
  version : Nat
  nonce : Nat
  sender : Bytes
  systemFee : Int
  networkFee : Int
  validUntilBlock : Nat
  script : Bytes
deriving Repr, DecidableEq, Inhabited

/-- `block.Block`: the fields consumed by the embedded handlers. -/
structure Block where
  hash : Bytes
  version : Nat
  prevHash : Bytes
  merkleRoot : Bytes
  timestamp : Nat
  index : Nat
  nextConsensus : Bytes
  transactions : List Tx
deriving Repr, DecidableEq, Inhabited

/-- VM stack items (`stackitem` package kinds used by the handlers). -/
inductive StackItem where
  | Null : StackItem
  | Boolean (b : Bool) : StackItem
  | BigInteger (i : Int) : StackItem
  | ByteArray (b : Bytes) : StackItem
  | Array (items : List StackItem) : StackItem
  | Interop (sc : StorageContext) : StackItem
deriving Repr, Inhabited

/-- `state.NotificationEvent`: emitter script hash and payload item. -/
structure NotificationEvent where
  scriptHash : Bytes
  item : StackItem
deriving Repr, Inhabited

/-- The combined `interop.Context` / `vm.VM` view consumed by the handlers:
the VM evaluation stack, the chain view, the DAO, notifications, invocation
counters, the current frame (script hash and call flags), the scripts loaded
by `LoadScriptWithHash` and the gas accounts. -/
structure InteropState where
  estack : List StackItem
  chainHeight : Nat
  headerHashByIndex : Nat → Bytes
  chainBlocks : Bytes → Option Block
  daoBlocks : Bytes → Option Block
  daoTxs : Bytes → Option (Tx × Nat)
  contracts : Bytes → Option Contract
  storage : Int → Bytes → Option StorageItem
  notifications : List NotificationEvent
  invocations : Bytes → Nat
  currentScriptHash : Bytes
  currentFlags : Nat
  loaded : List (Bytes × Bytes × Nat)
  gasConsumed : Int
  gasLimit : Int

/-- `Estack().PushVal`: push an item on the evaluation stack. -/
def push (s : InteropState) (it : StackItem) : InteropState :=
  { s with estack := it :: s.estack }

/-- `Estack().Pop()`: pop the top of the evaluation stack (a VM fault when
the stack is empty). -/
def popE (s : InteropState) : Except String (StackItem × InteropState) :=
  match s.estack with
  | [] => .error "stack is empty"
  | x :: rest => .ok (x, { s with estack := rest })

/-- `Element.Bytes`: byte view of a stack item (byte arrays verbatim,
integers little-endian two's complement; other kinds fault). -/
def elementBytes : StackItem → Except String Bytes
  | .ByteArray b => .ok b
  | .BigInteger i => .ok (intToBytesLE i)
  | _ => .error "can not convert to bytes"

/-- `Element.BigInt`: integer view of a stack item. -/
def elementBigInt : StackItem → Except String Int
  | .BigInteger i => .ok i
  | .ByteArray b => .ok (intOfBytesLE b)
  | .Boolean b => .ok (if b then 1 else 0)
  | _ => .error "can not convert to integer"

/-- `stackitem.Item.TryBytes`: byte arrays verbatim, integers via their
little-endian encoding, other kinds fail. -/
def tryBytes : StackItem → Except String Bytes
  | .ByteArray b => .ok b
  | .BigInteger i => .ok (intToBytesLE i)
  | _ => .error "can not convert to bytes"

/-- `util.Uint256DecodeBytesBE`: succeeds exactly on 32-byte input. -/
def uint256DecodeBytesBE (b : Bytes) : Except String Bytes :=
  if b.length = 32 then .ok b else .error "expected 32 bytes"

/-- `util.Uint160DecodeBytesBE`: succeeds exactly on 20-byte input. -/
def uint160DecodeBytesBE (b : Bytes) : Except String Bytes :=
  if b.length = 20 then .ok b else .error "expected 20 bytes"

/-- `isTraceableBlock`: `index <= height && index+MaxTraceableBlocks >
height` where `index` and `height` are uint32, so the sum wraps modulo
2^32. -/
def isTraceableBlock (s : InteropState) (index : Nat) : Bool :=
  let height := s.chainHeight
  decide (index ≤ height) && decide ((index + MaxTraceableBlocks) % 2 ^ 32 > height)

/-- `getBlockHashFromElement`: an element of byte length ≤ 5 is an index
(reject negative or > MaxUint32, then look the hash up); otherwise it must
decode as a 32-byte hash. -/
def getBlockHashFromElement (s : InteropState) (e : StackItem) : Except String Bytes := do
  let hashbytes ← elementBytes e
  if hashbytes.length ≤ 5 then
    let i ← elementBigInt e
    let hashint := wrap64 i
    if hashint < 0 ∨ hashint > 4294967295 then .error "bad block index"
    else .ok (s.headerHashByIndex hashint.toNat)
  else uint256DecodeBytesBE hashbytes

/-- `blockToStackItem`: a block marshals to an 8-item array. -/
def blockToStackItem (b : Block) : StackItem :=
  .Array [.ByteArray b.hash,
          .BigInteger b.version,
          .ByteArray b.prevHash,
          .ByteArray b.merkleRoot,
          .BigInteger b.timestamp,
          .BigInteger b.index,
          .ByteArray b.nextConsensus,
          .BigInteger b.transactions.length]

/-- `transactionToStackItem`: a transaction marshals to an 8-item array. -/
def transactionToStackItem (t : Tx) : StackItem :=
  .Array [.ByteArray t.hash,
          .BigInteger t.version,
          .BigInteger t.nonce,
          .ByteArray t.sender,
          .BigInteger t.systemFee,
          .BigInteger t.networkFee,
          .BigInteger t.validUntilBlock,
          .ByteArray t.script]

/-- `bcGetBlock`: hash-resolution errors fault; a missing or non-traceable
block pushes `Null`; otherwise the 8-item block array is pushed. -/
def bcGetBlock (s : InteropState) : Except String InteropState := do
  let (e, s1) ← popE s
  let hash ← getBlockHashFromElement s1 e
  match s1.chainBlocks hash with
  | none => .ok (push s1 .Null)
  | some b =>
    if isTraceableBlock s1 b.index then .ok (push s1 (blockToStackItem b))
    else .ok (push s1 .Null)

/-- `getTransactionAndHeight`: pops a hash, decodes it and queries the DAO.
The outer `Except` is a VM-level fault (bad stack); the inner one is the
returned Go error consumed by the callers' `err != nil` branches. -/
def getTransactionAndHeight (s : InteropState) :
    Except String (Except String (Tx × Nat) × InteropState) := do
  let (e, s1) ← popE s
  let hashbytes ← elementBytes e
  match uint256DecodeBytesBE hashbytes with
  | .error m => .ok (.error m, s1)
  | .ok hash =>
    match s1.daoTxs hash with
    | none => .ok (.error "transaction not found", s1)
    | some th => .ok (.ok th, s1)

/-- `bcGetTransaction`: lookup error or a non-traceable height pushes
`Null`; otherwise the 8-item transaction array is pushed. -/
def bcGetTransaction (s : InteropState) : Except String InteropState := do
  let (r, s1) ← getTransactionAndHeight s
  match r with
  | .error _ => .ok (push s1 .Null)
  | .ok (tx, h) =>
    if isTraceableBlock s1 h then .ok (push s1 (transactionToStackItem tx))
    else .ok (push s1 .Null)

/-- `bcGetTransactionHeight`: lookup error or a non-traceable height pushes
the integer −1; otherwise the height is pushed. -/
def bcGetTransactionHeight (s : InteropState) : Except String InteropState := do
  let (r, s1) ← getTransactionAndHeight s
  match r with
  | .error _ => .ok (push s1 (.BigInteger (-1)))
  | .ok (_, h) =>
    if isTraceableBlock s1 h then .ok (push s1 (.BigInteger h))
    else .ok (push s1 (.BigInteger (-1)))

/-- `bcGetTransactionFromBlock`: resolves the block first (missing or
non-traceable pushes `Null` with the index element still on the stack);
only then pops the transaction index, faults when it is out of bounds, and
otherwise pushes the selected transaction's hash bytes. -/
def bcGetTransactionFromBlock (s : InteropState) : Except String InteropState := do
  let (e, s1) ← popE s
  let hash ← getBlockHashFromElement s1 e
  match s1.daoBlocks hash with
  | none => .ok (push s1 .Null)
  | some b =>
    if ¬ isTraceableBlock s1 b.index then .ok (push s1 .Null)
    else do
      let (ei, s2) ← popE s1
      let i ← elementBigInt ei
      let index := wrap64 i
      if index < 0 ∨ (b.transactions.length : Int) ≤ index then
        .error "wrong transaction index"
      else
        .ok (push s2 (.ByteArray (b.transactions.getD index.toNat default).hash))

/-- Modelled from the spec: `VM.AddGas` (the `vm` package is not in
`src/`): add to the consumed counter and report whether the budget still
holds; a negative limit means no limit, and `gasLeft = gasLimit −
gasConsumed`. -/
def addGas (s : InteropState) (gas : Int) : Bool × InteropState :=
  let consumed := s.gasConsumed + gas
  (decide (s.gasLimit < 0) || decide (consumed ≤ s.gasLimit),
   { s with gasConsumed := consumed })

/-- Point update of the storage map at `(id, key)`. -/
def putItem (st : Int → Bytes → Option StorageItem) (id : Int) (key : Bytes)
    (si : StorageItem) : Int → Bytes → Option StorageItem :=
  fun i k => if i = id ∧ k = key then some si else st i k

/-- `putWithContextAndFlags`: rejects oversized keys, read-only handles and
constant items; bills `sizeInc × StoragePrice` gas with `sizeInc = max(1,
new_len − old_len)` and aborts without mutating when billing fails;
otherwise writes the item. -/
def putWithContextAndFlags (s : InteropState) (stc : StorageContext)
    (key value : Bytes) (isConst : Bool) : Except String InteropState :=
  if key.length > MaxStorageKeyLen then .error "key is too big"
  else if stc.ReadOnly then .error "StorageContext is read only"
  else
    let si := (s.storage stc.ID key).getD ⟨[], false⟩
    if si.IsConst then .error "storage item exists and is read-only"
    else
      let sizeInc : Nat :=
        if value.length > si.Value.length then value.length - si.Value.length else 1
      let r := addGas s ((sizeInc : Int) * StoragePrice)
      if ¬ r.1 then .error "gas limit is exceeded"
      else .ok { r.2 with storage := putItem r.2.storage stc.ID key ⟨value, isConst⟩ }

/-- `storagePutInternal`: pops the context, key and value (and, when
`getFlag`, a flag integer), then defers to `putWithContextAndFlags` with
the constant marker set iff the flag equals 1. -/
def storagePutInternal (s : InteropState) (getFlag : Bool) :
    Except String InteropState := do
  let (stcItem, s1) ← popE s
  let stc ← match stcItem with
            | .Interop sc => pure sc
            | _ => Except.error "not a StorageContext"
  let (keyE, s2) ← popE s1
  let key ← elementBytes keyE
  let (valE, s3) ← popE s2
  let value ← elementBytes valE
  let (flag, s4) ←
    if getFlag then do
      let (fE, s4) ← popE s3
      let fv ← elementBigInt fE
      pure (wrap64 fv, s4)
    else pure ((0 : Int), s3)
  putWithContextAndFlags s4 stc key value (flag = 1)

/-- `storagePut`: put without flags. -/
def storagePut (s : InteropState) : Except String InteropState :=
  storagePutInternal s false

/-- `storagePutEx`: put with a flag integer. -/
def storagePutEx (s : InteropState) : Except String InteropState :=
  storagePutInternal s true

/-- `storageGetContext`: only a stored contract with the `HasStorage`
feature receives a writable handle. -/
def storageGetContext (s : InteropState) : Except String InteropState :=
  match s.contracts s.currentScriptHash with
  | none => .error "contract state not found"
  | some c =>
    if ¬ c.hasStorage then .error "contract is not allowed to use storage"
    else .ok (push s (.Interop ⟨c.ID, false⟩))

/-- `storageGetReadOnlyContext`: for a stored contract without the
`HasStorage` feature the handler returns the (nil) lookup error verbatim,
succeeding without pushing anything; otherwise a read-only handle is
pushed. -/
def storageGetReadOnlyContext (s : InteropState) : Except String InteropState :=
  match s.contracts s.currentScriptHash with
  | none => .error "contract state not found"
  | some c =>
    if ¬ c.hasStorage then .ok s
    else .ok (push s (.Interop ⟨c.ID, true⟩))

/-- `storageContextAsReadOnly`: a writable handle is replaced by a freshly
allocated read-only one with the same id; an already read-only handle is
pushed back as is. -/
def storageContextAsReadOnly (s : InteropState) : Except String InteropState := do
  let (stcItem, s1) ← popE s
  let stc ← match stcItem with
            | .Interop sc => pure sc
            | _ => Except.error "not a StorageContext"
  let stc2 := if ¬ stc.ReadOnly then { ID := stc.ID, ReadOnly := true } else stc
  .ok (push s1 (.Interop stc2))

/-- Increment the per-target invocation counter at `u`. -/
def bumpInv (inv : Bytes → Nat) (u : Bytes) : Bytes → Nat :=
  fun x => if x = u then inv x + 1 else inv x

/-- `contractCallExInternal`: decode the target hash, resolve the target
contract (fail when missing), take the method bytes, consult the caller's
manifest ACL only when a contract is stored under the current script hash,
then bump the invocation counter, load the target script with the
intersection of the current and requested call flags, and push the
arguments and then the method. -/
def contractCallExInternal (canCall : Manifest → Manifest → Bytes → Bool)
    (s : InteropState) (h : Bytes) (method args : StackItem) (f : Nat) :
    Except String InteropState := do
  let u ← match uint160DecodeBytesBE h with
          | .ok u => pure u
          | .error _ => Except.error "invalid contract hash"
  let cs ← match s.contracts u with
           | some cs => pure cs
           | none => Except.error "contract not found"
  let bs ← tryBytes method
  let run : Except String InteropState :=
    .ok { s with invocations := bumpInv s.invocations u,
                 loaded := (cs.script, u, Nat.land s.currentFlags f) :: s.loaded,
                 estack := method :: args :: s.estack }
  match s.contracts s.currentScriptHash with
  | some curr =>
    if ¬ canCall curr.manifest cs.manifest bs then .error "disallowed method call"
    else run
  | none => run

/-- Modelled from the spec: `smartcontract.All` call-flag mask (the
`smartcontract` package is not in `src/`); call flags are a small bit set
and `All` sets every bit. -/
def CallFlagAll : Nat := 15

/-- `contractCall`: pops hash bytes, method and arguments and calls with
all flags requested. -/
def contractCall (canCall : Manifest → Manifest → Bytes → Bool)
    (s : InteropState) : Except String InteropState := do
  let (hE, s1) ← popE s
  let h ← elementBytes hE
  let (method, s2) ← popE s1
  let (args, s3) ← popE s2
  contractCallExInternal canCall s3 h method args CallFlagAll

mutual

/-- Modelled from the spec: canonical stack-item serialization (the
`stackitem` package codec is not in `src/`): length-prefixed, type-tagged
and deterministic; interop-only items are rejected (reference cycles cannot
arise in the inductive model). -/
def serializeItem : StackItem → Except String Bytes
  | .Null => .ok [0]
  | .Boolean b => .ok [1, if b then 1 else 0]
  | .BigInteger i => .ok (2 :: (intToBytesLE i).length :: intToBytesLE i)
  | .ByteArray b => .ok (3 :: b.length :: b)
  | .Interop _ => .error "interop items can not be serialized"
  | .Array items => do
      let body ← serializeItems items
      .ok (4 :: items.length :: body)

/-- Serialization of a list of items, element-wise concatenation. -/
def serializeItems : List StackItem → Except String Bytes
  | [] => .ok []
  | x :: xs => do
      let a ← serializeItem x
      let b ← serializeItems xs
      .ok (a ++ b)

end

/-- `runtimeNotify`: pop one item; when it does not serialize, replace it
with the byte-string `"bad notification: <error>"`; append exactly one
notification tagged with the current script hash. -/
def runtimeNotify (s : InteropState) : Except String InteropState := do
  let (item, s1) ← popE s
  let recorded :=
    match serializeItem item with
    | .ok _ => item
    | .error msg => .ByteArray (strBytes ("bad notification: " ++ msg))
  .ok { s1 with notifications :=
          s1.notifications ++ [⟨s1.currentScriptHash, recorded⟩] }

/-- A neutral base state used to build concrete witnesses. -/
def baseState : InteropState where
  estack := []
  chainHeight := 0
  headerHashByIndex := fun _ => []
  chainBlocks := fun _ => none
  daoBlocks := fun _ => none
  daoTxs := fun _ => none
  contracts := fun _ => none
  storage := fun _ _ => none
  notifications := []
  invocations := fun _ => 0
  currentScriptHash := []
  currentFlags := 0
  loaded := []
  gasConsumed := 0
  gasLimit := -1

/-- A signed value already in the 64-bit range is unchanged by the Go
`Int64` wrap. -/
theorem wrap64_eq_of_small (i : Int) (hlo : -(2 : Int) ^ 63 ≤ i)
    (hhi : i < 2 ^ 63) : wrap64 i = i := by
  unfold wrap64
  have h1 : (0 : Int) ≤ i + 2 ^ 63 := by omega
  have h2 : i + 2 ^ 63 < 2 ^ 64 := by omega
  rw [Int.emod_eq_of_lt h1 h2]
  omega

/-- C1: the traceability predicate agrees with the spec's two-sided window
only up to uint32 wraparound: it is `index ≤ tip ∧ (index +
MaxTraceableBlocks) mod 2^32 > tip`; equality `index == tip` is traceable
whenever the sum does not overflow, and `index > tip` is never
traceable. -/
theorem isTraceableBlock_window (s : InteropState) (index : Nat)
    (hIdx : index < 2 ^ 32) (hTip : s.chainHeight < 2 ^ 32) :
    (isTraceableBlock s index = true ↔
      (index ≤ s.chainHeight ∧ (index + MaxTraceableBlocks) % 2 ^ 32 > s.chainHeight)) ∧
    (index > s.chainHeight → isTraceableBlock s index = false) ∧
    (index = s.chainHeight → index + MaxTraceableBlocks < 2 ^ 32 →
      isTraceableBlock s index = true) := by
  refine ⟨?_, ?_, ?_⟩
  · simp only [isTraceableBlock, Bool.and_eq_true, decide_eq_true_eq]
  · intro hgt
    simp only [isTraceableBlock, Bool.and_eq_false_iff, decide_eq_false_iff_not]
    left
    omega
  · intro he hov
    simp only [isTraceableBlock, Bool.and_eq_true, decide_eq_true_eq]
    constructor
    · omega
    · rw [Nat.mod_eq_of_lt hov]
      have : 0 < MaxTraceableBlocks := by decide
      omega

/-- C1 witness: at tip 10, block 5 is traceable by the amended window. -/
theorem isTraceableBlock_window_witness :
    (isTraceableBlock { baseState with chainHeight := 10 } 5 = true ↔
      (5 ≤ 10 ∧ (5 + MaxTraceableBlocks) % 2 ^ 32 > 10)) ∧
    (5 > 10 → isTraceableBlock { baseState with chainHeight := 10 } 5 = false) ∧
    (5 = 10 → 5 + MaxTraceableBlocks < 2 ^ 32 →
      isTraceableBlock { baseState with chainHeight := 10 } 5 = true) :=
  isTraceableBlock_window { baseState with chainHeight := 10 } 5
    (by decide) (by decide)

/-- C1 counterexample: at tip 2^32 − 1 with index 2^32 − 1 the spec's
exact-arithmetic window (and its `index == tip` tie-break) declares the
block traceable, but the code's uint32 addition wraps and the predicate
returns false. -/
theorem isTraceableBlock_exact_arith_fails :
    isTraceableBlock { baseState with chainHeight := 4294967295 } 4294967295 = false ∧
    4294967295 ≤ 4294967295 ∧ 4294967295 + MaxTraceableBlocks > 4294967295 := by
  decide

/-- A concrete transaction used by the witness states. -/
def txA : Tx where
  hash := List.replicate 32 7
  version := 0
  nonce := 0
  sender := List.replicate 20 1
  systemFee := 0
  networkFee := 0
  validUntilBlock := 0
  script := []

/-- A concrete single-transaction block stored under hash `77…7`. -/
def blockA : Block where
  hash := List.replicate 32 7
  version := 0
  prevHash := List.replicate 32 0
  merkleRoot := List.replicate 32 0
  timestamp := 0
  index := 0
  nextConsensus := List.replicate 20 0
  transactions := [txA]

/-- A chain at height 300 000 whose block 0 (hash `77…7`) lies outside the
200 000-block traceability window; the hash is on the evaluation stack. -/
def stOld : InteropState :=
  { baseState with
      chainHeight := 300000
      estack := [.ByteArray (List.replicate 32 7)]
      chainBlocks := fun h => if h = List.replicate 32 7 then some blockA else none
      daoBlocks := fun h => if h = List.replicate 32 7 then some blockA else none
      daoTxs := fun h => if h = List.replicate 32 7 then some (txA, 0) else none }

/-- C2 (amended): when the stored target fails the traceability predicate,
`bcGetBlock`, `bcGetTransaction` and `bcGetTransactionFromBlock` succeed
and push `Null`, while `bcGetTransactionHeight` succeeds and pushes the
integer −1 instead of `Null`. -/
theorem nonTraceable_lookups_report_sentinels (s : InteropState) (h32 : Bytes)
    (rest : List StackItem) (b : Block) (tx : Tx) (ht : Nat)
    (hstack : s.estack = .ByteArray h32 :: rest)
    (hlen : h32.length = 32)
    (hcb : s.chainBlocks h32 = some b)
    (hdb : s.daoBlocks h32 = some b)
    (htx : s.daoTxs h32 = some (tx, ht))
    (hbt : isTraceableBlock s b.index = false)
    (htt : isTraceableBlock s ht = false) :
    bcGetBlock s = .ok { s with estack := .Null :: rest } ∧
    bcGetTransaction s = .ok { s with estack := .Null :: rest } ∧
    bcGetTransactionFromBlock s = .ok { s with estack := .Null :: rest } ∧
    bcGetTransactionHeight s = .ok { s with estack := .BigInteger (-1) :: rest } := by
  have hb : isTraceableBlock { s with estack := rest } b.index = false := hbt
  have hh : isTraceableBlock { s with estack := rest } ht = false := htt
  refine ⟨?_, ?_, ?_, ?_⟩
  · simp [bcGetBlock, popE, hstack, getBlockHashFromElement, elementBytes,
      uint256DecodeBytesBE, hlen, hcb, hb, push, Bind.bind, Except.bind]
  · simp [bcGetTransaction, getTransactionAndHeight, popE, hstack, elementBytes,
      uint256DecodeBytesBE, hlen, htx, hh, push, Bind.bind, Except.bind]
  · simp [bcGetTransactionFromBlock, popE, hstack, getBlockHashFromElement,
      elementBytes, uint256DecodeBytesBE, hlen, hdb, hb, push, Bind.bind, Except.bind]
  · simp [bcGetTransactionHeight, getTransactionAndHeight, popE, hstack,
      elementBytes, uint256DecodeBytesBE, hlen, htx, hh, push, Bind.bind, Except.bind]

/-- C2 witness: the concrete non-traceable target of `stOld` makes all four
lookups succeed with their sentinel results. -/
theorem nonTraceable_lookups_report_sentinels_witness :
    bcGetBlock stOld = .ok { stOld with estack := [.Null] } ∧
    bcGetTransaction stOld = .ok { stOld with estack := [.Null] } ∧
    bcGetTransactionFromBlock stOld = .ok { stOld with estack := [.Null] } ∧
    bcGetTransactionHeight stOld = .ok { stOld with estack := [.BigInteger (-1)] } :=
  nonTraceable_lookups_report_sentinels stOld (List.replicate 32 7) [] blockA txA 0
    rfl (by decide) (by simp [stOld]) (by simp [stOld]) (by simp [stOld])
    (by decide) (by decide)

/-- C2 counterexample: at the concrete state `stOld` the non-traceable
target makes `bcGetTransactionHeight` push the integer −1, not the `Null`
item the claim demands of all four lookups. -/
theorem getTransactionHeight_pushes_minus_one_not_null :
    isTraceableBlock stOld 0 = false ∧
    bcGetTransactionHeight stOld = .ok { stOld with estack := [.BigInteger (-1)] } ∧
    bcGetTransactionHeight stOld ≠ .ok { stOld with estack := [.Null] } := by
  have hok : bcGetTransactionHeight stOld =
      .ok { stOld with estack := [.BigInteger (-1)] } := by
    rfl
  refine ⟨by decide, hok, ?_⟩
  intro hcontra
  have hstates := Except.ok.inj (hok.symm.trans hcontra)
  have hlist := congrArg InteropState.estack hstates
  simp at hlist

/-- The source's `sizeInc` computation equals `max(1, new_len −
old_len)`. -/
theorem sizeInc_eq_max (s : InteropState) (stc : StorageContext)
    (key value : Bytes) :
    (if value.length > ((s.storage stc.ID key).getD ⟨[], false⟩).Value.length
      then value.length - ((s.storage stc.ID key).getD ⟨[], false⟩).Value.length else 1)
      = max 1 (value.length - ((s.storage stc.ID key).getD ⟨[], false⟩).Value.length) := by
  split <;> omega

/-- A put faults whenever the handle is read-only, the key is oversized,
the existing item is constant, or gas cannot be billed. -/
theorem putWithContextAndFlags_fails (s : InteropState) (stc : StorageContext)
    (key value : Bytes) (isConst : Bool)
    (hfail : stc.ReadOnly = true ∨ key.length > 1024 ∨
      ((s.storage stc.ID key).getD ⟨[], false⟩).IsConst = true ∨
      ¬ (s.gasLimit < 0 ∨
         s.gasConsumed +
           ((max 1 (value.length - ((s.storage stc.ID key).getD ⟨[], false⟩).Value.length) : Nat) : Int)
             * StoragePrice ≤ s.gasLimit)) :
    ∃ msg, putWithContextAndFlags s stc key value isConst = .error msg := by
  have hsz := sizeInc_eq_max s stc key value
  unfold putWithContextAndFlags
  simp only [hsz]
  split_ifs with h1 h2 h3 h4
  · exact ⟨_, rfl⟩
  · exact ⟨_, rfl⟩
  · exact ⟨_, rfl⟩
  · exfalso
    rcases hfail with hr | hk | hc | hg
    · exact h2 hr
    · exact h1 (by simpa [MaxStorageKeyLen] using hk)
    · exact h3 hc
    · exact hg (by simpa [addGas, Bool.or_eq_true, decide_eq_true_eq] using h4)
  · exact ⟨_, rfl⟩

/-- When no failure condition holds a put bills the gas and writes the
item. -/
theorem putWithContextAndFlags_writes (s : InteropState) (stc : StorageContext)
    (key value : Bytes) (isConst : Bool)
    (hro : stc.ReadOnly = false) (hkey : key.length ≤ 1024)
    (hconst : ((s.storage stc.ID key).getD ⟨[], false⟩).IsConst = false)
    (hgas : s.gasLimit < 0 ∨
      s.gasConsumed +
        ((max 1 (value.length - ((s.storage stc.ID key).getD ⟨[], false⟩).Value.length) : Nat) : Int)
          * StoragePrice ≤ s.gasLimit) :
    putWithContextAndFlags s stc key value isConst =
      .ok { s with
              gasConsumed := s.gasConsumed +
                ((max 1 (value.length - ((s.storage stc.ID key).getD ⟨[], false⟩).Value.length) : Nat) : Int)
                  * StoragePrice,
              storage := putItem s.storage stc.ID key ⟨value, isConst⟩ } := by
  have hsz := sizeInc_eq_max s stc key value
  unfold putWithContextAndFlags
  simp only [hsz]
  rw [if_neg (by simp [MaxStorageKeyLen]; omega), if_neg (by simp [hro]),
      if_neg (by simp [hconst]), if_neg ?hgas]
  · rfl
  case hgas =>
    simp only [addGas, Bool.or_eq_true, decide_eq_true_eq, not_not]
    tauto

/-- C3: `Put`/`PutEx` (via `putWithContextAndFlags`) fail—leaving the
stored item unchanged—exactly when the handle is read-only, the key
exceeds 1024 bytes, the existing item is constant, or billing `max(1,
new_len − old_len) × StoragePrice` gas fails; otherwise the value is
written (and the gas is billed). -/
theorem put_checks_and_bills (s : InteropState) (stc : StorageContext)
    (key value : Bytes) (isConst : Bool) :
    (stc.ReadOnly = true ∨ key.length > 1024 ∨
        ((s.storage stc.ID key).getD ⟨[], false⟩).IsConst = true ∨
        ¬ (s.gasLimit < 0 ∨
           s.gasConsumed +
             ((max 1 (value.length - ((s.storage stc.ID key).getD ⟨[], false⟩).Value.length) : Nat) : Int)
               * StoragePrice ≤ s.gasLimit) →
      ∃ msg, putWithContextAndFlags s stc key value isConst = .error msg) ∧
    (stc.ReadOnly = false → key.length ≤ 1024 →
      ((s.storage stc.ID key).getD ⟨[], false⟩).IsConst = false →
      (s.gasLimit < 0 ∨
        s.gasConsumed +
          ((max 1 (value.length - ((s.storage stc.ID key).getD ⟨[], false⟩).Value.length) : Nat) : Int)
            * StoragePrice ≤ s.gasLimit) →
      putWithContextAndFlags s stc key value isConst =
        .ok { s with
                gasConsumed := s.gasConsumed +
                  ((max 1 (value.length - ((s.storage stc.ID key).getD ⟨[], false⟩).Value.length) : Nat) : Int)
                    * StoragePrice,
                storage := putItem s.storage stc.ID key ⟨value, isConst⟩ }) :=
  ⟨putWithContextAndFlags_fails s stc key value isConst,
   fun hro hkey hconst hgas =>
     putWithContextAndFlags_writes s stc key value isConst hro hkey hconst hgas⟩

/-- C3 witness: on the empty store with unlimited gas, writing `[9, 9]`
under key `[5]` succeeds and records the billed gas. -/
theorem put_checks_and_bills_witness :
    putWithContextAndFlags baseState ⟨1, false⟩ [5] [9, 9] false =
      .ok { baseState with
              gasConsumed := baseState.gasConsumed +
                ((max 1 ([9, 9].length -
                  ((baseState.storage (1 : Int) [5]).getD ⟨[], false⟩).Value.length) : Nat) : Int)
                  * StoragePrice,
              storage := putItem baseState.storage 1 [5] ⟨[9, 9], false⟩ } :=
  (put_checks_and_bills baseState ⟨1, false⟩ [5] [9, 9] false).2
    rfl (by decide) rfl (Or.inl (by decide))

/-- C4 (amended): a successful `PutEx` writes the item with the `IsConst`
marker set exactly when the popped flag equals 1 (not when its low bit is
set). -/
theorem putEx_constant_iff_flag_eq_one (s : InteropState) (stc : StorageContext)
    (key value : Bytes) (flag : Int) (rest : List StackItem)
    (hstack : s.estack = .Interop stc :: .ByteArray key :: .ByteArray value ::
      .BigInteger flag :: rest)
    (hrange : -(2 : Int) ^ 63 ≤ flag ∧ flag < 2 ^ 63)
    (hro : stc.ReadOnly = false) (hkey : key.length ≤ 1024)
    (hconst : ((s.storage stc.ID key).getD ⟨[], false⟩).IsConst = false)
    (hgas : s.gasLimit < 0) :
    storagePutInternal s true =
      .ok { s with
              estack := rest,
              gasConsumed := s.gasConsumed +
                ((max 1 (value.length - ((s.storage stc.ID key).getD ⟨[], false⟩).Value.length) : Nat) : Int)
                  * StoragePrice,
              storage := putItem s.storage stc.ID key ⟨value, decide (flag = 1)⟩ } := by
  have hw := wrap64_eq_of_small flag hrange.1 hrange.2
  have hput := putWithContextAndFlags_writes { s with estack := rest } stc key value
    (decide (flag = 1)) hro hkey hconst (Or.inl hgas)
  simp [storagePutInternal, popE, hstack, elementBytes, elementBigInt,
    Bind.bind, Except.bind, Pure.pure, Except.pure, hw, hput]

/-- C4 witness: `PutEx` with flag 3 writes a non-constant item, since
`decide (3 = 1) = false`. -/
theorem putEx_constant_iff_flag_eq_one_witness :
    storagePutInternal { baseState with estack := [.Interop ⟨1, false⟩,
        .ByteArray [7], .ByteArray [9], .BigInteger 3] } true =
      .ok { baseState with
              estack := [],
              gasConsumed := baseState.gasConsumed +
                ((max 1 ([9].length -
                  ((baseState.storage (1 : Int) [7]).getD ⟨[], false⟩).Value.length) : Nat) : Int)
                  * StoragePrice,
              storage := putItem baseState.storage 1 [7] ⟨[9], decide ((3 : Int) = 1)⟩ } :=
  putEx_constant_iff_flag_eq_one
    { baseState with estack := [.Interop ⟨1, false⟩, .ByteArray [7],
        .ByteArray [9], .BigInteger 3] }
    ⟨1, false⟩ [7] [9] 3 [] rfl (by norm_num) rfl (by decide) rfl (by decide)

/-- C4 counterexample: the claim predicts that any odd flag (bit 0 set),
e.g. 3, marks the written item constant; the code compares the flag to 1,
so flag 3 writes a non-constant item. -/
theorem putEx_flag3_not_constant :
    Nat.testBit 3 0 = true ∧
    storagePutInternal { baseState with estack := [.Interop ⟨1, false⟩,
        .ByteArray [7], .ByteArray [9], .BigInteger 3] } true =
      .ok { baseState with
              estack := [],
              gasConsumed := (1 : Int) * StoragePrice,
              storage := putItem baseState.storage 1 [7] ⟨[9], false⟩ } ∧
    (∀ st : InteropState,
      storagePutInternal { baseState with estack := [.Interop ⟨1, false⟩,
          .ByteArray [7], .ByteArray [9], .BigInteger 3] } true = .ok st →
        ¬ st.storage 1 [7] = some ⟨[9], true⟩) := by
  have hok : storagePutInternal { baseState with estack := [.Interop ⟨1, false⟩,
      .ByteArray [7], .ByteArray [9], .BigInteger 3] } true =
      .ok { baseState with
              estack := [],
              gasConsumed := (1 : Int) * StoragePrice,
              storage := putItem baseState.storage 1 [7] ⟨[9], false⟩ } := by rfl
  refine ⟨by decide, hok, ?_⟩
  intro st h
  have := Except.ok.inj (hok.symm.trans h)
  subst this
  simp [putItem]

/-- C5: `asReadOnly` pushes a handle with the read-only flag set and the
same id as the input handle; the rest of the state (and hence the input
handle value, which the code never mutates—it allocates a new record when
needed) is unchanged. -/
theorem asReadOnly_derives_readonly_handle (s : InteropState)
    (h : StorageContext) (rest : List StackItem)
    (hstack : s.estack = .Interop h :: rest) :
    storageContextAsReadOnly s =
      .ok { s with estack := .Interop ⟨h.ID, true⟩ :: rest } := by
  obtain ⟨id, ro⟩ := h
  cases ro <;>
    simp [storageContextAsReadOnly, popE, hstack, push, Bind.bind, Except.bind,
      Pure.pure, Except.pure]

/-- C5 witness: a writable handle with id 5 is replaced by a read-only one
with id 5. -/
theorem asReadOnly_derives_readonly_handle_witness :
    storageContextAsReadOnly { baseState with estack := [.Interop ⟨5, false⟩] } =
      .ok { baseState with estack := [.Interop ⟨5, true⟩] } :=
  asReadOnly_derives_readonly_handle
    { baseState with estack := [.Interop ⟨5, false⟩] } ⟨5, false⟩ [] rfl

/-- A concrete contract without the `HasStorage` feature bit. -/
def contractNoSt : Contract where
  ID := 7
  script := [1]
  manifest := ⟨0⟩

/-- A state whose current contract is stored but lacks `HasStorage`. -/
def stNoSt : InteropState :=
  { baseState with
      contracts := fun h => if h = ([] : Bytes) then some contractNoSt else none }

/-- C9: when the current contract exists but lacks the `HasStorage`
feature, `storageGetReadOnlyContext` succeeds by returning the nil lookup
error verbatim—yielding no usable handle (the state, and in particular the
stack, is unchanged)—whereas `storageGetContext` faults. -/
theorem getReadOnlyContext_succeeds_getContext_fails (s : InteropState)
    (c : Contract) (hc : s.contracts s.currentScriptHash = some c)
    (hns : c.hasStorage = false) :
    storageGetReadOnlyContext s = .ok s ∧
    storageGetContext s = .error "contract is not allowed to use storage" := by
  constructor <;> simp [storageGetReadOnlyContext, storageGetContext, hc, hns]

/-- C9 witness: the concrete storage-less contract of `stNoSt`. -/
theorem getReadOnlyContext_succeeds_getContext_fails_witness :
    storageGetReadOnlyContext stNoSt = .ok stNoSt ∧
    storageGetContext stNoSt = .error "contract is not allowed to use storage" :=
  getReadOnlyContext_succeeds_getContext_fails stNoSt contractNoSt rfl rfl

/-- C6: a call to a target hash with no stored contract state always
faults; when a contract is stored under the current script hash the call
faults unless `CanCall` allows it; when none is stored the ACL check is
skipped and the call proceeds. -/
theorem callExInternal_acl (canCall : Manifest → Manifest → Bytes → Bool)
    (s : InteropState) (h bs : Bytes) (args : StackItem) (f : Nat)
    (hlen : h.length = 20) :
    (s.contracts h = none →
      contractCallExInternal canCall s h (.ByteArray bs) args f =
        .error "contract not found") ∧
    (∀ cs curr, s.contracts h = some cs →
      s.contracts s.currentScriptHash = some curr →
      canCall curr.manifest cs.manifest bs = false →
      contractCallExInternal canCall s h (.ByteArray bs) args f =
        .error "disallowed method call") ∧
    (∀ cs, s.contracts h = some cs → s.contracts s.currentScriptHash = none →
      ∃ st, contractCallExInternal canCall s h (.ByteArray bs) args f = .ok st) ∧
    (∀ cs curr, s.contracts h = some cs →
      s.contracts s.currentScriptHash = some curr →
      canCall curr.manifest cs.manifest bs = true →
      ∃ st, contractCallExInternal canCall s h (.ByteArray bs) args f = .ok st) := by
  refine ⟨?_, ?_, ?_, ?_⟩
  · intro hnone
    simp [contractCallExInternal, uint160DecodeBytesBE, hlen, hnone,
      Bind.bind, Except.bind, Pure.pure, Except.pure]
  · intro cs curr htgt hcur hno
    simp [contractCallExInternal, uint160DecodeBytesBE, hlen, htgt, hcur, hno,
      tryBytes, Bind.bind, Except.bind, Pure.pure, Except.pure]
  · intro cs htgt hcur
    simp [contractCallExInternal, uint160DecodeBytesBE, hlen, htgt, hcur,
      tryBytes, Bind.bind, Except.bind, Pure.pure, Except.pure]
  · intro cs curr htgt hcur hyes
    simp [contractCallExInternal, uint160DecodeBytesBE, hlen, htgt, hcur, hyes,
      tryBytes, Bind.bind, Except.bind, Pure.pure, Except.pure]

/-- Allow-everything ACL used by concrete witnesses. -/
def allowAll : Manifest → Manifest → Bytes → Bool := fun _ _ _ => true

/-- A concrete target contract stored under hash `22…2`. -/
def contractTgt : Contract where
  ID := 9
  script := [2, 3]
  manifest := ⟨1⟩

/-- A state with the target contract stored and no caller contract under
the (empty) current script hash. -/
def stCall : InteropState :=
  { baseState with
      contracts := fun h => if h = List.replicate 20 2 then some contractTgt else none
      currentFlags := 15 }

/-- C6 witness: with no caller contract stored, the ACL check is skipped
and the concrete call succeeds. -/
theorem callExInternal_acl_witness :
    ∃ st, contractCallExInternal allowAll stCall (List.replicate 20 2)
      (.ByteArray [97]) (.Array []) 15 = .ok st :=
  (callExInternal_acl allowAll stCall (List.replicate 20 2) [97] (.Array []) 15
    (by decide)).2.2.1 contractTgt rfl rfl

/-- C7: on a successful call the interop bumps the target's invocation
counter by one, loads the target script with effective flags equal to the
bitwise intersection of the current frame's flags and the requested flags,
and pushes the arguments and then the method—no return value of its own. -/
theorem callExInternal_success_effects (canCall : Manifest → Manifest → Bytes → Bool)
    (s : InteropState) (h bs : Bytes) (args : StackItem) (f : Nat) (cs : Contract)
    (hlen : h.length = 20) (htgt : s.contracts h = some cs)
    (hacl : ∀ curr, s.contracts s.currentScriptHash = some curr →
      canCall curr.manifest cs.manifest bs = true) :
    contractCallExInternal canCall s h (.ByteArray bs) args f =
      .ok { s with
              invocations := bumpInv s.invocations h,
              loaded := (cs.script, h, Nat.land s.currentFlags f) :: s.loaded,
              estack := .ByteArray bs :: args :: s.estack } := by
  rcases hcur : s.contracts s.currentScriptHash with _ | curr
  · simp [contractCallExInternal, uint160DecodeBytesBE, hlen, htgt, hcur,
      tryBytes, Bind.bind, Except.bind, Pure.pure, Except.pure]
  · have := hacl curr hcur
    simp [contractCallExInternal, uint160DecodeBytesBE, hlen, htgt, hcur, this,
      tryBytes, Bind.bind, Except.bind, Pure.pure, Except.pure]

/-- C7 witness: the concrete call records script `[2, 3]` loaded under the
target hash with flags `15 ∧ 7`, bumps the counter and pushes arguments
then method. -/
theorem callExInternal_success_effects_witness :
    contractCallExInternal allowAll stCall (List.replicate 20 2)
      (.ByteArray [97]) (.Array []) 7 =
      .ok { stCall with
              invocations := bumpInv stCall.invocations (List.replicate 20 2),
              loaded := (contractTgt.script, List.replicate 20 2,
                Nat.land stCall.currentFlags 7) :: stCall.loaded,
              estack := .ByteArray [97] :: .Array [] :: stCall.estack } :=
  callExInternal_success_effects allowAll stCall (List.replicate 20 2) [97]
    (.Array []) 7 contractTgt (by decide) rfl
    (fun _ hcur => Option.noConfusion hcur)

/-- C8: `notify` pops exactly one item and always succeeds, appending
exactly one notification tagged with the current script hash; a
serializable item is recorded verbatim, a non-serializable one is replaced
by the byte-string `"bad notification: <error>"`. -/
theorem notify_records_one_event (s : InteropState) (item : StackItem)
    (rest : List StackItem) (hstack : s.estack = item :: rest) :
    ∃ payload,
      runtimeNotify s = .ok { s with
        estack := rest,
        notifications := s.notifications ++ [⟨s.currentScriptHash, payload⟩] } ∧
      (∀ bs, serializeItem item = .ok bs → payload = item) ∧
      (∀ m, serializeItem item = .error m →
        payload = .ByteArray (strBytes ("bad notification: " ++ m))) := by
  cases hser : serializeItem item with
  | error m =>
    refine ⟨.ByteArray (strBytes ("bad notification: " ++ m)), ?_, ?_, ?_⟩
    · simp [runtimeNotify, popE, hstack, hser, Bind.bind, Except.bind]
    · intro bs hbs
      exact Except.noConfusion hbs
    · intro m' hm
      injection hm with hme
      rw [hme]
  | ok bs =>
    refine ⟨item, ?_, ?_, ?_⟩
    · simp [runtimeNotify, popE, hstack, hser, Bind.bind, Except.bind]
    · intro bs' hbs
      rfl
    · intro m' hm
      exact Except.noConfusion hm

/-- C8 witness: notifying the serializable `Null` item records it
verbatim. -/
theorem notify_records_one_event_witness :
    ∃ payload,
      runtimeNotify { baseState with estack := [.Null] } = .ok { baseState with
        estack := ([] : List StackItem),
        notifications := baseState.notifications ++
          [⟨baseState.currentScriptHash, payload⟩] } ∧
      (∀ bs, serializeItem .Null = .ok bs → payload = .Null) ∧
      (∀ m, serializeItem .Null = .error m →
        payload = .ByteArray (strBytes ("bad notification: " ++ m))) :=
  notify_records_one_event { baseState with estack := [.Null] } .Null [] rfl

/-- C10: `bcGetTransactionFromBlock` pops and bounds-checks the
transaction index only after the traceability test succeeds (the
non-traceable branch leaves the index on the stack under the pushed
`Null`); an index that is negative or at least the transaction count
faults, and otherwise the selected transaction's hash bytes—not a
marshalled transaction array—are pushed. -/
theorem getTransactionFromBlock_pushes_hash (s : InteropState) (h32 : Bytes)
    (i : Int) (rest : List StackItem) (b : Block)
    (hstack : s.estack = .ByteArray h32 :: .BigInteger i :: rest)
    (hlen : h32.length = 32)
    (hdb : s.daoBlocks h32 = some b)
    (hrange : -(2 : Int) ^ 63 ≤ i ∧ i < 2 ^ 63) :
    (isTraceableBlock s b.index = false →
      bcGetTransactionFromBlock s =
        .ok { s with estack := .Null :: .BigInteger i :: rest }) ∧
    (isTraceableBlock s b.index = true →
      (i < 0 ∨ (b.transactions.length : Int) ≤ i) →
      bcGetTransactionFromBlock s = .error "wrong transaction index") ∧
    (isTraceableBlock s b.index = true → 0 ≤ i →
      i < (b.transactions.length : Int) →
      bcGetTransactionFromBlock s =
        .ok { s with
          estack := .ByteArray (b.transactions.getD i.toNat default).hash :: rest }) ∧
    (∀ items, StackItem.ByteArray (b.transactions.getD i.toNat default).hash ≠
      .Array items) := by
  have hw := wrap64_eq_of_small i hrange.1 hrange.2
  refine ⟨?_, ?_, ?_, ?_⟩
  · intro hbt
    have hb : isTraceableBlock { s with estack := .BigInteger i :: rest } b.index
        = false := hbt
    simp [bcGetTransactionFromBlock, popE, hstack, getBlockHashFromElement,
      elementBytes, uint256DecodeBytesBE, hlen, hdb, hb, push,
      Bind.bind, Except.bind]
  · intro hbt hout
    have hb : isTraceableBlock { s with estack := .BigInteger i :: rest } b.index
        = true := hbt
    rcases hout with hlt | hle
    · simp [bcGetTransactionFromBlock, popE, hstack, getBlockHashFromElement,
        elementBytes, elementBigInt, uint256DecodeBytesBE, hlen, hdb, hb, hw,
        push, Bind.bind, Except.bind, hlt]
    · simp [bcGetTransactionFromBlock, popE, hstack, getBlockHashFromElement,
        elementBytes, elementBigInt, uint256DecodeBytesBE, hlen, hdb, hb, hw,
        push, Bind.bind, Except.bind, hle]
  · intro hbt hge hlt
    have hb : isTraceableBlock { s with estack := .BigInteger i :: rest } b.index
        = true := hbt
    have h1 : ¬ i < 0 := not_lt.mpr hge
    have h2 : ¬ (b.transactions.length : Int) ≤ i := not_le.mpr hlt
    simp [bcGetTransactionFromBlock, popE, hstack, getBlockHashFromElement,
      elementBytes, elementBigInt, uint256DecodeBytesBE, hlen, hdb, hb, hw,
      push, Bind.bind, Except.bind, h1, h2]
  · intro items
    simp

/-- A fresh chain (height 0) with the single-transaction block stored and
traceable; the hash and the index 0 are on the stack. -/
def stFresh : InteropState :=
  { baseState with
      estack := [.ByteArray (List.replicate 32 7), .BigInteger 0]
      daoBlocks := fun h => if h = List.replicate 32 7 then some blockA else none }

/-- C10 witness: fetching transaction 0 of the traceable concrete block
pushes its hash bytes. -/
theorem getTransactionFromBlock_pushes_hash_witness :
    bcGetTransactionFromBlock stFresh =
      .ok { stFresh with
        estack := .ByteArray (blockA.transactions.getD (Int.toNat 0) default).hash
          :: [] } :=
  (getTransactionFromBlock_pushes_hash stFresh (List.replicate 32 7) 0 [] blockA
    rfl (by decide) rfl (by norm_num)).2.2.1 (by decide) (by decide) (by decide)

end NeoGo
